import Mathlib

/-!
Shallow embedding of the TravelAgency repository's rate limiter
(`src/lib/errorHandler.ts`) and session authority (`src/lib/auth.ts`),
together with theorems settling the spec claims about them.

Modelling conventions:
* JavaScript timestamps (`Date.now()`, milliseconds since epoch) are `Nat`
  values passed explicitly; within a single call every read of the clock
  returns the same value.
* The in-memory `Map` backing the rate-limit store is an association list;
  `Map.get` is `List.lookup`, `Map.set` replaces the binding, `Map.delete`
  removes it.
* Mutation is modelled by explicit state passing: each store operation
  returns its result together with the updated store.
-/

namespace TravelAgency

/-! ## Rate limiter (`src/lib/errorHandler.ts`) -/

/-- `interface RateLimitEntry` (errorHandler.ts):
`count`, `firstRequest`, `resetTime`. -/
structure RateLimitEntry where
  count : Nat
  firstRequest : Nat
  resetTime : Nat
deriving DecidableEq, Repr

/-- `interface RateLimitConfig` (errorHandler.ts): `windowMs`, `maxRequests`,
`message`, `statusCode`, optional `keyGenerator`. -/
structure RateLimitConfig where
  windowMs : Nat
  maxRequests : Nat
  message : String
  statusCode : Nat
  keyGenerator : Option (String → String)

/-- The backing `Map<string, RateLimitEntry>` of `RateLimitStore`. -/
abbrev Store := List (String × RateLimitEntry)

/-- `Map.prototype.get`: the binding for `k`, if any. -/
def Store.lookup (s : Store) (k : String) : Option RateLimitEntry :=
  List.lookup k s

/-- `Map.prototype.delete`: remove the binding for `k`. -/
def Store.delete (s : Store) (k : String) : Store :=
  s.filter (fun p => p.1 ≠ k)

/-- `Map.prototype.set`: bind `k` to `v`, replacing any previous binding. -/
def Store.set (s : Store) (k : String) (v : RateLimitEntry) : Store :=
  (k, v) :: Store.delete s k

/-- `RateLimitStore.cleanup` (errorHandler.ts lines 332-345): collect the
keys of all entries whose `resetTime < now`, then delete each collected key. -/
def RateLimitStore.cleanup (s : Store) (now : Nat) : Store :=
  let expiredKeys := (s.filter (fun p => p.2.resetTime < now)).map Prod.fst
  expiredKeys.foldl (fun acc k => Store.delete acc k) s

/-- The interval, in milliseconds, at which the `RateLimitStore` constructor
schedules `cleanup` (`setInterval(() => this.cleanup(), 60000)`,
errorHandler.ts lines 322-327). -/
def cleanupIntervalMs : Nat := 60000

/-- `RateLimitStore.get` (errorHandler.ts lines 350-363): return the entry
for `key`; if its window has expired (`resetTime < now`) delete it and
return `null`. -/
def RateLimitStore.get (s : Store) (key : String) (now : Nat) :
    Option RateLimitEntry × Store :=
  match Store.lookup s key with
  | none => (none, s)
  | some entry =>
    if entry.resetTime < now then (none, Store.delete s key)
    else (some entry, s)

/-- `RateLimitStore.increment` (errorHandler.ts lines 368-386): if there is
no entry for `key`, or its `resetTime < now`, install a fresh entry with
`count = 1`, `firstRequest = now`, `resetTime = now + windowMs`; otherwise
increment the existing entry's `count` in place. -/
def RateLimitStore.increment (s : Store) (key : String) (windowMs now : Nat) :
    RateLimitEntry × Store :=
  match Store.lookup s key with
  | none =>
    let newEntry : RateLimitEntry := ⟨1, now, now + windowMs⟩
    (newEntry, Store.set s key newEntry)
  | some entry =>
    if entry.resetTime < now then
      let newEntry : RateLimitEntry := ⟨1, now, now + windowMs⟩
      (newEntry, Store.set s key newEntry)
    else
      let bumped : RateLimitEntry :=
        { entry with count := entry.count + 1 }
      (bumped, Store.set s key bumped)

/-- The result record returned by the function `createRateLimiter` produces:
`{ allowed, remaining, resetTime, retryAfter }`. -/
structure RateLimitResult where
  allowed : Bool
  remaining : Nat
  resetTime : Nat
  retryAfter : Nat
deriving DecidableEq, Repr

/-- The key used by a limiter call:
`config.keyGenerator ? config.keyGenerator(identifier) : identifier`. -/
def rlKey (config : RateLimitConfig) (identifier : String) : String :=
  match config.keyGenerator with
  | some g => g identifier
  | none => identifier

/-- `Math.ceil((resetTime - now) / 1000)` followed by the clamp
`retryAfter > 0 ? retryAfter : 0` (errorHandler.ts lines 429, 435), computed
over `Nat`: when `now < resetTime` the difference is positive and the ceiling
is `(resetTime - now + 999) / 1000`; otherwise the ceiling is `≤ 0` and the
clamp yields `0`. -/
def retryAfterClamped (resetTime now : Nat) : Nat :=
  if now < resetTime then (resetTime - now + 999) / 1000 else 0

/-- `createRateLimiter` (errorHandler.ts lines 423-438): the returned
closure, taking the shared store and the current clock explicitly. -/
def createRateLimiter (config : RateLimitConfig) (identifier : String)
    (s : Store) (now : Nat) : RateLimitResult × Store :=
  let key := rlKey config identifier
  let res := RateLimitStore.increment s key config.windowMs now
  let entry := res.1
  let remaining := config.maxRequests - entry.count
  ({ allowed := entry.count ≤ config.maxRequests
     remaining := remaining
     resetTime := entry.resetTime
     retryAfter := retryAfterClamped entry.resetTime now }, res.2)

/-- A live entry in the sense of `increment`'s test
`!entry || entry.resetTime < now`: the binding for `key`, unless absent or
past its `resetTime`. -/
def liveEntry (s : Store) (key : String) (now : Nat) : Option RateLimitEntry :=
  match Store.lookup s key with
  | none => none
  | some entry => if entry.resetTime < now then none else some entry

/-- `n` successive limiter calls for the same identifier, all within the same
clock instant `now`, starting from store `s`. -/
def applyCalls (config : RateLimitConfig) (identifier : String) (now : Nat) :
    Nat → Store → Store
  | 0, s => s
  | n + 1, s => (createRateLimiter config identifier (applyCalls config identifier now n s) now).2

/-! ## Client IP derivation (`getClientIP`, errorHandler.ts lines 444-466) -/

/-- The request headers, as consulted through `Headers.prototype.get`
(`null` for an absent header). -/
abbrev HeaderMap := List (String × String)

/-- `headers.get(name)`. -/
def HeaderMap.get (h : HeaderMap) (name : String) : Option String :=
  List.lookup name h

/-- JavaScript truthiness of a `headers.get` result (`if (forwarded)`):
`null` and the empty string are falsy. -/
def truthy : Option String → Bool
  | none => false
  | some s => s ≠ ""

/-- JS `String.prototype.split` with a single-character separator, on the
character list: splitting the empty string yields `[""]`, and the result is
never the empty list (so indexing `[0]` is total). -/
def splitChar (c : Char) : List Char → List (List Char)
  | [] => [[]]
  | x :: xs =>
    if x = c then [] :: splitChar c xs
    else
      match splitChar c xs with
      | [] => [[x]]
      | h :: t => (x :: h) :: t

/-- JS `forwarded.split(',')`. -/
def jsSplit (s : String) (c : Char) : List String :=
  (splitChar c s.toList).map String.mk

/-- JS `String.prototype.trim`: strip leading and trailing whitespace. -/
def jsTrim (s : String) : String :=
  String.mk
    (((s.toList.dropWhile Char.isWhitespace).reverse.dropWhile
        Char.isWhitespace).reverse)

/-- `getClientIP` (errorHandler.ts lines 444-466): try `x-forwarded-for`
(first entry of the comma-separated list, trimmed), then
`cf-connecting-ip`, then `x-real-ip`, each guarded by JS truthiness, and
fall back to the literal `"unknown"`. -/
def getClientIP (h : HeaderMap) : String :=
  let forwarded := HeaderMap.get h "x-forwarded-for"
  if truthy forwarded then jsTrim ((jsSplit (forwarded.getD "") ',').headD "")
  else
    let cloudflare := HeaderMap.get h "cf-connecting-ip"
    if truthy cloudflare then cloudflare.getD ""
    else
      let realIP := HeaderMap.get h "x-real-ip"
      if truthy realIP then realIP.getD ""
      else "unknown"

/-! ## Session authority (`src/lib/auth.ts`)

`createSession` / `verifySession` delegate signing and signature checking to
the `jose` library (`SignJWT`, `jwtVerify`), which is a third-party
dependency, not part of this repository's sources. It is modelled from the
spec below (see `hmacSign`, `jwtVerifyModel`). -/

/-- `SESSION_EXPIRATION_HOURS = 2` (auth.ts line 19). -/
def SESSION_EXPIRATION_HOURS : Nat := 2

/-- A JavaScript `Date` value: either a valid instant (ms since epoch) or
the `Invalid Date` produced by parsing a non-date (`NaN` time value). -/
inductive JsDate where
  | valid (ms : Nat)
  | invalid
deriving DecidableEq, Repr

/-- `Date` relational comparison (`a < b` via `valueOf`): any comparison
involving an `Invalid Date` is a `NaN` comparison and yields `false`. -/
def JsDate.lt : JsDate → JsDate → Bool
  | .valid a, .valid b => a < b
  | _, _ => false

/-- A string sitting in the `expiresAt` claim slot, classified by how
`new Date(s)` parses it: `iso ms` stands for `new Date(ms).toISOString()`
(which parses back to `ms`), `unparsable raw` for any string `new Date`
turns into `Invalid Date`. -/
inductive ClaimString where
  | iso (ms : Nat)
  | unparsable (raw : String)
deriving DecidableEq, Repr

/-- `Date.prototype.toISOString` on the valid date `ms`. -/
def isoOfMs (ms : Nat) : ClaimString := .iso ms

/-- `new Date(s)` on a string `s`. -/
def parseDateString : ClaimString → JsDate
  | .iso ms => .valid ms
  | .unparsable _ => .invalid

/-- `new Date(payload.expiresAt as string)` where the claim may be absent:
`new Date(undefined)` is `Invalid Date`. -/
def jsParseDate : Option ClaimString → JsDate
  | none => .invalid
  | some s => parseDateString s

/-- The JWT payload assembled by `createSession`: the custom claims
`{ username, expiresAt }` (the latter an ISO string, possibly absent or
garbage in a foreign token) plus the registered claims `iat`
(`setIssuedAt()`) and `exp` (`setExpirationTime`), both in whole seconds. -/
structure SessionTokenPayload where
  username : String
  expiresAtIso : Option ClaimString
  iat : Nat
  exp : Nat
deriving DecidableEq, Repr

/-- Modelled from the spec: the HMAC-SHA256 signature over a payload,
produced with the server-held secret. The spec requires that "tampering
with either field invalidates the signature", i.e. a perfect MAC; it is
modelled symbolically as the (secret, payload) pair itself, which makes it
injective in both arguments and unforgeable without the secret. -/
structure MacSig where
  secret : String
  signedPayload : SessionTokenPayload
deriving DecidableEq, Repr

/-- Signing a payload with a secret (the `sign(JWT_SECRET)` step). -/
def hmacSign (secret : String) (p : SessionTokenPayload) : MacSig :=
  ⟨secret, p⟩

/-- A serialized session token as seen by `verifySession`: either a
structurally well-formed JWT carrying a payload and a signature, or a
byte string that does not even parse as a JWT. -/
inductive Token where
  | signed (payload : SessionTokenPayload) (sig : MacSig)
  | malformed (raw : String)
deriving DecidableEq, Repr

/-- The error causes `jose.jwtVerify` can raise. -/
inductive JoseError where
  | malformedToken
  | signatureMismatch
  | expired
deriving DecidableEq, Repr

/-- Modelled from the spec: `jose.jwtVerify(token, secret)` (the `jose`
library is not part of the repository sources). It rejects tokens that do
not parse, tokens whose signature does not verify against `secret`, and —
per its own internal expiry enforcement acknowledged by the spec — tokens
whose registered `exp` claim (whole seconds) is not in the future, i.e.
`exp ≤ ⌊now / 1000⌋`. -/
def jwtVerifyModel (secret : String) (token : Token) (nowMs : Nat) :
    Except JoseError SessionTokenPayload :=
  match token with
  | .malformed _ => .error .malformedToken
  | .signed payload sig =>
    if sig ≠ hmacSign secret payload then .error .signatureMismatch
    else if payload.exp ≤ nowMs / 1000 then .error .expired
    else .ok payload

/-- `interface SessionPayload` (auth.ts lines 21-24): `username` and the
`expiresAt` `Date` reconstructed from the token. -/
structure SessionPayload where
  username : String
  expiresAt : JsDate
deriving DecidableEq, Repr

/-- `createSession` (auth.ts lines 26-36): build the payload
`{ username, expiresAt: (now + 2h).toISOString() }`, set `iat` to the
current epoch second and `exp` to `iat + 2h`, and sign with the secret. -/
def createSession (secret : String) (username : String) (nowMs : Nat) : Token :=
  let expiresAtMs := nowMs + SESSION_EXPIRATION_HOURS * 60 * 60 * 1000
  let payload : SessionTokenPayload :=
    { username := username
      expiresAtIso := some (isoOfMs expiresAtMs)
      iat := nowMs / 1000
      exp := nowMs / 1000 + SESSION_EXPIRATION_HOURS * 60 * 60 }
  .signed payload (hmacSign secret payload)

/-- `verifySession` (auth.ts lines 38-57): run `jwtVerify`; on any thrown
error the `catch` returns `null`. On success, parse the `expiresAt` claim
with `new Date(...)` and return `null` if `expiresAt < new Date()`;
otherwise return the session payload. -/
def verifySession (secret : String) (token : Token) (nowMs : Nat) :
    Option SessionPayload :=
  match jwtVerifyModel secret token nowMs with
  | .error _ => none
  | .ok payload =>
    let expiresAt := jsParseDate payload.expiresAtIso
    if JsDate.lt expiresAt (.valid nowMs) then none
    else some { username := payload.username, expiresAt := expiresAt }

/-! ## Credential verification (`src/lib/auth.ts` `verifyCredentials` and
the login route `src/app/api/auth/login/route.ts`)

`bcrypt.compare` is a third-party primitive; it is taken as an opaque
boolean oracle `bc : String → String → Bool` (password, hash ↦ match).
Artificial anti-timing delays (`setTimeout`) are modelled symbolically:
each function returns the total artificial delay, in milliseconds, awaited
on the taken path. -/

/-- The process configuration read by `verifyCredentials`
(`process.env.ADMIN_EMAIL`, `process.env.ADMIN_PASSWORD`). -/
structure AuthEnv where
  adminEmail : String
  adminPassword : String
deriving DecidableEq, Repr

/-- Hardcoded in `verifyCredentials` (auth.ts line 77):
"FORCE HARDCODED CREDENTIALS FOR DEBUGGING". -/
def TARGET_EMAIL : String := "admin@russoluxtours.de"

/-- Hardcoded in `verifyCredentials` (auth.ts line 79), the bcrypt hash of
the literal password mentioned in its comment. -/
def TARGET_HASH : String :=
  "$2b$10$tUUemSJgbfXhTFH.LgwXJup6UoxMAp6i36lKZGRiXcgaGuCkCNdf2"

/-- `verifyCredentials` (auth.ts lines 72-105): reads `env` into locals
(which the body then never uses), compares the supplied email against the
hardcoded `TARGET_EMAIL` — on mismatch awaiting a 100 ms delay and
returning `false` — and otherwise compares the password against the
hardcoded `TARGET_HASH` via `bcrypt.compare` (errors collapsing to
`false`). Returns the decision together with the artificial delay
incurred. -/
def verifyCredentials (bc : String → String → Bool) (env : AuthEnv)
    (email password : String) : Bool × Nat :=
  let _adminEmail := env.adminEmail
  let _adminPassword := env.adminPassword
  if email ≠ TARGET_EMAIL then (false, 100)
  else (bc password TARGET_HASH, 0)

/-- The credential-checking section of the login route's `POST`
(route.ts lines 54-70): call `verifyCredentials`; on failure await a
further 1000 ms delay before responding 401. Returns the decision and the
total artificial delay accumulated across both layers on the taken path. -/
def loginRouteCheck (bc : String → String → Bool) (env : AuthEnv)
    (email password : String) : Bool × Nat :=
  let res := verifyCredentials bc env email password
  if res.1 then (true, res.2) else (false, res.2 + 1000)

/-! ## Store lemmas -/

theorem Store.lookup_set_self (s : Store) (k : String) (v : RateLimitEntry) :
    Store.lookup (Store.set s k v) k = some v := by
  simp [Store.lookup, Store.set, List.lookup]

theorem Store.lookup_delete_self (s : Store) (k : String) :
    Store.lookup (Store.delete s k) k = none := by
  induction s with
  | nil => rfl
  | cons a t ih =>
    obtain ⟨a1, a2⟩ := a
    by_cases h : a1 = k
    · simpa [Store.delete, List.filter, h] using ih
    · have hbeq : (k == a1) = false := by
        simp only [beq_eq_false_iff_ne]
        exact fun e => h e.symm
      simpa [Store.delete, Store.lookup, List.filter, List.lookup, h, hbeq]
        using ih

theorem mem_foldl_delete (ks : List String) (s : Store)
    (p : String × RateLimitEntry)
    (h : p ∈ ks.foldl (fun acc k => Store.delete acc k) s) :
    p ∈ s ∧ p.1 ∉ ks := by
  induction ks generalizing s with
  | nil => simpa using h
  | cons k ks ih =>
    have h' := ih (Store.delete s k) h
    have hmem : p ∈ s ∧ p.1 ≠ k := by
      have := h'.1
      simp only [Store.delete, List.mem_filter, decide_eq_true_eq] at this
      exact this
    refine ⟨hmem.1, ?_⟩
    simp only [List.mem_cons, not_or]
    exact ⟨hmem.2, h'.2⟩

/-- C3: the cleanup sweep, scheduled at a fixed 60000 ms interval in the
store's constructor, deletes every entry whose `resetTime` has already
passed: after a pass no entry with `resetTime < now` remains in the store
(whether or not its key saw any request since expiring), and the sweep
leaves the empty store empty rather than failing. -/
theorem cleanup_removes_all_expired :
    cleanupIntervalMs = 60000 ∧
    (∀ (s : Store) (now : Nat) (p : String × RateLimitEntry),
        p ∈ RateLimitStore.cleanup s now → ¬ p.2.resetTime < now) ∧
    (∀ now : Nat, RateLimitStore.cleanup [] now = []) := by
  refine ⟨rfl, ?_, fun _ => rfl⟩
  intro s now p hp hexp
  have h := mem_foldl_delete _ _ _ hp
  have hkey : p.1 ∈ (List.filter (fun q => q.2.resetTime < now) s).map Prod.fst := by
    exact List.mem_map_of_mem _ (List.mem_filter.2 ⟨h.1, by simpa using hexp⟩)
  exact h.2 hkey

theorem cleanup_removes_all_expired_witness :
    (("stale", (⟨3, 0, 5⟩ : RateLimitEntry)) ∈
        RateLimitStore.cleanup [("stale", ⟨3, 0, 5⟩), ("live", ⟨1, 0, 99⟩)] 10 →
      ¬ (5 : Nat) < 10) ∧
    ¬ (("fresh", (⟨1, 0, 50⟩ : RateLimitEntry)).2.resetTime < 20) :=
  ⟨fun hmem => cleanup_removes_all_expired.2.1
      [("stale", ⟨3, 0, 5⟩), ("live", ⟨1, 0, 99⟩)] 10 ("stale", ⟨3, 0, 5⟩) hmem,
   cleanup_removes_all_expired.2.1 [("fresh", ⟨1, 0, 50⟩)] 20 ("fresh", ⟨1, 0, 50⟩)
      (by decide)⟩

theorem increment_of_not_live (s : Store) (key : String) (w now : Nat)
    (h : liveEntry s key now = none) :
    RateLimitStore.increment s key w now =
      (⟨1, now, now + w⟩, Store.set s key ⟨1, now, now + w⟩) := by
  unfold liveEntry at h
  unfold RateLimitStore.increment
  cases hl : Store.lookup s key with
  | none => simp [hl]
  | some e =>
    simp only [hl] at h ⊢
    by_cases hexp : e.resetTime < now
    · simp [hexp]
    · simp only [if_neg hexp] at h
      exact absurd h (by simp)

theorem increment_of_live (s : Store) (key : String) (w now : Nat)
    (e : RateLimitEntry) (h : liveEntry s key now = some e) :
    RateLimitStore.increment s key w now =
      ({ e with count := e.count + 1 },
       Store.set s key { e with count := e.count + 1 }) := by
  unfold liveEntry at h
  unfold RateLimitStore.increment
  cases hl : Store.lookup s key with
  | none => simp [hl] at h
  | some e' =>
    simp only [hl] at h ⊢
    by_cases hexp : e'.resetTime < now
    · simp [if_pos hexp] at h
    · simp only [if_neg hexp] at h ⊢
      obtain rfl : e' = e := by simpa using h
      rfl

theorem createRateLimiter_of_not_live (config : RateLimitConfig)
    (identifier : String) (s : Store) (now : Nat)
    (h : liveEntry s (rlKey config identifier) now = none) :
    createRateLimiter config identifier s now =
      ({ allowed := decide (1 ≤ config.maxRequests)
         remaining := config.maxRequests - 1
         resetTime := now + config.windowMs
         retryAfter := retryAfterClamped (now + config.windowMs) now },
       Store.set s (rlKey config identifier) ⟨1, now, now + config.windowMs⟩) := by
  simp only [createRateLimiter]
  rw [increment_of_not_live _ _ _ _ h]

theorem createRateLimiter_of_live (config : RateLimitConfig)
    (identifier : String) (s : Store) (now : Nat) (e : RateLimitEntry)
    (h : liveEntry s (rlKey config identifier) now = some e) :
    createRateLimiter config identifier s now =
      ({ allowed := decide (e.count + 1 ≤ config.maxRequests)
         remaining := config.maxRequests - (e.count + 1)
         resetTime := e.resetTime
         retryAfter := retryAfterClamped e.resetTime now },
       Store.set s (rlKey config identifier)
         { e with count := e.count + 1 }) := by
  simp only [createRateLimiter]
  rw [increment_of_live _ _ _ _ _ h]

/-- `Math.max(0, a - b)` over JS numbers agrees with saturating `Nat`
subtraction. -/
theorem natSub_cast_eq_max (a b : Nat) :
    ((a - b : Nat) : ℤ) = max 0 ((a : ℤ) - b) := by
  rcases Nat.le_total b a with h | h
  · rw [Nat.cast_sub h, max_eq_right (by omega)]
  · rw [Nat.sub_eq_zero_of_le h, max_eq_left (by omega)]
    rfl

/-- `retryAfterClamped` computes `Math.ceil((resetTime - now) / 1000)`
floored at `0`. -/
theorem retryAfterClamped_eq_ceil (r n : Nat) :
    ((retryAfterClamped r n : Nat) : ℤ) =
      max 0 ⌈(((r : ℚ) - (n : ℚ)) / 1000)⌉ := by
  unfold retryAfterClamped
  by_cases h : n < r
  · rw [if_pos h]
    have hq : (((r - n + 999) / 1000 : Nat) : ℤ) =
        ⌈(((r : ℚ) - (n : ℚ)) / 1000)⌉ := by
      set q : Nat := (r - n + 999) / 1000 with hqdef
      have h1 : r - n ≤ 1000 * q := by omega
      have h2 : 1000 * q < (r - n) + 1000 := by omega
      symm
      rw [Int.ceil_eq_iff]
      have hcast : ((r - n : Nat) : ℚ) = (r : ℚ) - (n : ℚ) := by
        push_cast [Nat.cast_sub (le_of_lt h)]
        ring
      constructor
      · rw [lt_div_iff₀ (by norm_num : (0 : ℚ) < 1000)]
        push_cast
        have h2' : (1000 : ℚ) * q < ((r - n : Nat) : ℚ) + 1000 := by
          exact_mod_cast h2
        rw [hcast] at h2'
        linarith
      · rw [div_le_iff₀ (by norm_num : (0 : ℚ) < 1000)]
        push_cast
        have h1' : ((r - n : Nat) : ℚ) ≤ (1000 : ℚ) * q := by
          exact_mod_cast h1
        rw [hcast] at h1'
        linarith
    rw [hq, max_eq_right]
    rw [← hq]
    exact Int.ofNat_nonneg _
  · rw [if_neg h]
    have hle : r ≤ n := le_of_not_lt h
    have hx : ((r : ℚ) - (n : ℚ)) / 1000 ≤ 0 := by
      apply div_nonpos_of_nonpos_of_nonneg
      · have : (r : ℚ) ≤ (n : ℚ) := by exact_mod_cast hle
        linarith
      · norm_num
    rw [max_eq_left (Int.ceil_le.mpr (by exact_mod_cast hx))]
    rfl

theorem applyCalls_lookup (config : RateLimitConfig) (identifier : String)
    (now : Nat) (s : Store)
    (h : liveEntry s (rlKey config identifier) now = none) :
    ∀ k : Nat,
      Store.lookup (applyCalls config identifier now (k + 1) s)
          (rlKey config identifier)
        = some ⟨k + 1, now, now + config.windowMs⟩ := by
  intro k
  induction k with
  | zero =>
    show Store.lookup (createRateLimiter config identifier
        (applyCalls config identifier now 0 s) now).2 _ = _
    rw [show applyCalls config identifier now 0 s = s from rfl]
    rw [createRateLimiter_of_not_live _ _ _ _ h]
    exact Store.lookup_set_self _ _ _
  | succ k ih =>
    show Store.lookup (createRateLimiter config identifier
        (applyCalls config identifier now (k + 1) s) now).2 _ = _
    have hlive : liveEntry (applyCalls config identifier now (k + 1) s)
        (rlKey config identifier) now
        = some ⟨k + 1, now, now + config.windowMs⟩ := by
      unfold liveEntry
      rw [ih]
      simp only [Option.some.injEq]
      rw [if_neg (by omega)]
    rw [createRateLimiter_of_live _ _ _ _ _ hlive]
    exact Store.lookup_set_self _ _ _

theorem nthCall_allowed (config : RateLimitConfig) (identifier : String)
    (now : Nat) (s : Store)
    (h : liveEntry s (rlKey config identifier) now = none) (i : Nat) :
    (createRateLimiter config identifier
        (applyCalls config identifier now i s) now).1.allowed
      = decide (i + 1 ≤ config.maxRequests) := by
  cases i with
  | zero =>
    rw [show applyCalls config identifier now 0 s = s from rfl]
    rw [createRateLimiter_of_not_live _ _ _ _ h]
  | succ k =>
    have hlive : liveEntry (applyCalls config identifier now (k + 1) s)
        (rlKey config identifier) now
        = some ⟨k + 1, now, now + config.windowMs⟩ := by
      unfold liveEntry
      rw [applyCalls_lookup _ _ _ _ h k]
      simp only [Option.some.injEq]
      rw [if_neg (by omega)]
    rw [createRateLimiter_of_live _ _ _ _ _ hlive]

/-- C1 (amended): for every profile, key and clock, a limiter call with no
live entry for the (derived) key installs a fresh entry with `count = 1` and
`resetTime = now + windowMs` and returns `allowed = true` precisely when
`maxRequests ≥ 1` (so unconditionally for every profile with a positive
cap — the amendment: the claim's unconditional `allowed = true` fails for
`maxRequests = 0`); with a live entry it increments the count and returns
`allowed = true` iff the new count is at most `maxRequests`; in every case
`remaining = max(0, maxRequests - count)` and
`retryAfter = max(0, ⌈(resetTime - now) / 1000⌉)`; and starting with no live
entry, `maxRequests` same-window calls are all allowed while the
`(maxRequests + 1)`-th call in that window is rejected. -/
theorem rateLimiter_spec (config : RateLimitConfig) (identifier : String)
    (s : Store) (now : Nat) :
    (liveEntry s (rlKey config identifier) now = none →
      Store.lookup (createRateLimiter config identifier s now).2
          (rlKey config identifier)
        = some ⟨1, now, now + config.windowMs⟩ ∧
      (createRateLimiter config identifier s now).1.resetTime
        = now + config.windowMs ∧
      ((createRateLimiter config identifier s now).1.allowed = true ↔
        1 ≤ config.maxRequests) ∧
      ((createRateLimiter config identifier s now).1.remaining : ℤ)
        = max 0 ((config.maxRequests : ℤ) - 1) ∧
      ((createRateLimiter config identifier s now).1.retryAfter : ℤ)
        = max 0 ⌈(((now + config.windowMs : Nat) : ℚ) - (now : ℚ)) / 1000⌉) ∧
    (∀ e : RateLimitEntry,
      liveEntry s (rlKey config identifier) now = some e →
      Store.lookup (createRateLimiter config identifier s now).2
          (rlKey config identifier)
        = some ⟨e.count + 1, e.firstRequest, e.resetTime⟩ ∧
      ((createRateLimiter config identifier s now).1.allowed = true ↔
        e.count + 1 ≤ config.maxRequests) ∧
      ((createRateLimiter config identifier s now).1.remaining : ℤ)
        = max 0 ((config.maxRequests : ℤ) - (e.count + 1)) ∧
      ((createRateLimiter config identifier s now).1.retryAfter : ℤ)
        = max 0 ⌈((e.resetTime : ℚ) - (now : ℚ)) / 1000⌉) ∧
    (liveEntry s (rlKey config identifier) now = none →
      (∀ i : Nat, i < config.maxRequests →
        (createRateLimiter config identifier
            (applyCalls config identifier now i s) now).1.allowed = true) ∧
      (createRateLimiter config identifier
          (applyCalls config identifier now config.maxRequests s) now).1.allowed
        = false) := by
  refine ⟨?_, ?_, ?_⟩
  · intro h
    rw [createRateLimiter_of_not_live _ _ _ _ h]
    refine ⟨Store.lookup_set_self _ _ _, rfl, by simp, ?_, ?_⟩
    · exact natSub_cast_eq_max _ _
    · exact retryAfterClamped_eq_ceil _ _
  · intro e h
    rw [createRateLimiter_of_live _ _ _ _ _ h]
    refine ⟨Store.lookup_set_self _ _ _, by simp, ?_, ?_⟩
    · push_cast [natSub_cast_eq_max config.maxRequests (e.count + 1)]
      ring_nf
    · exact retryAfterClamped_eq_ceil _ _
  · intro h
    constructor
    · intro i hi
      rw [nthCall_allowed _ _ _ _ h i]
      simp only [decide_eq_true_eq]
      omega
    · rw [nthCall_allowed _ _ _ _ h config.maxRequests]
      simp

theorem rateLimiter_spec_witness :
    liveEntry [] (rlKey ⟨900000, 5, "Too many login attempts", 429, none⟩
        "login:1.2.3.4") 0 = none ∧
    (createRateLimiter ⟨900000, 5, "Too many login attempts", 429, none⟩
        "login:1.2.3.4"
        (applyCalls ⟨900000, 5, "Too many login attempts", 429, none⟩
          "login:1.2.3.4" 0 5 []) 0).1.allowed = false :=
  ⟨rfl,
   ((rateLimiter_spec ⟨900000, 5, "Too many login attempts", 429, none⟩
      "login:1.2.3.4" [] 0).2.2 rfl).2⟩

/-- C1 counterexample: with the profile `maxRequests = 0`, the first-ever
call for a key — no live entry exists — installs the fresh entry with
`count = 1` yet returns `allowed = false` (`1 ≤ 0` fails), refuting the
claim's unconditional "fresh entry ⇒ `allowed = true`". -/
theorem rateLimiter_counterexample :
    Store.lookup ([] : Store) "k" = none ∧
    Store.lookup (createRateLimiter ⟨1000, 0, "limited", 429, none⟩
        "k" [] 0).2 "k" = some ⟨1, 0, 1000⟩ ∧
    (createRateLimiter ⟨1000, 0, "limited", 429, none⟩ "k" [] 0).1.allowed
      = false :=
  ⟨rfl, rfl, rfl⟩

/-- C2 (amended): once an entry's `resetTime` has passed, the next limiter
call for that key is handled exactly like the first call of a new window,
regardless of the expired entry's count: the old entry is discarded
(equally by the lazy `get` path, which deletes it), the stored count is set
back to `1` with `resetTime = now + windowMs`, and the call returns
`allowed = true` precisely when `maxRequests ≥ 1` — as any first call does
(the amendment: the claim's unconditional `allowed = true` fails for
`maxRequests = 0`). -/
theorem windowReset_spec (config : RateLimitConfig) (identifier : String)
    (s : Store) (now : Nat) (e : RateLimitEntry)
    (hl : Store.lookup s (rlKey config identifier) = some e)
    (hexp : e.resetTime < now) :
    Store.lookup (createRateLimiter config identifier s now).2
        (rlKey config identifier)
      = some ⟨1, now, now + config.windowMs⟩ ∧
    (createRateLimiter config identifier s now).1.resetTime
      = now + config.windowMs ∧
    ((createRateLimiter config identifier s now).1.allowed = true ↔
      1 ≤ config.maxRequests) ∧
    (RateLimitStore.get s (rlKey config identifier) now).1 = none ∧
    Store.lookup (RateLimitStore.get s (rlKey config identifier) now).2
        (rlKey config identifier) = none := by
  have hlive : liveEntry s (rlKey config identifier) now = none := by
    unfold liveEntry
    rw [hl]
    simp [hexp]
  rw [createRateLimiter_of_not_live _ _ _ _ hlive]
  refine ⟨Store.lookup_set_self _ _ _, rfl, by simp, ?_, ?_⟩
  · unfold RateLimitStore.get
    rw [hl]
    simp [hexp]
  · unfold RateLimitStore.get
    rw [hl]
    simp only [if_pos hexp]
    exact Store.lookup_delete_self _ _

theorem windowReset_spec_witness :
    Store.lookup [("k", (⟨9, 0, 5⟩ : RateLimitEntry))]
        (rlKey ⟨1000, 3, "limited", 429, none⟩ "k") = some ⟨9, 0, 5⟩ ∧
    (⟨9, 0, 5⟩ : RateLimitEntry).resetTime < 10 ∧
    Store.lookup (createRateLimiter ⟨1000, 3, "limited", 429, none⟩ "k"
        [("k", ⟨9, 0, 5⟩)] 10).2 (rlKey ⟨1000, 3, "limited", 429, none⟩ "k")
      = some ⟨1, 10, 1010⟩ :=
  ⟨rfl, by norm_num,
   (windowReset_spec ⟨1000, 3, "limited", 429, none⟩ "k"
      [("k", ⟨9, 0, 5⟩)] 10 ⟨9, 0, 5⟩ rfl (by norm_num)).1⟩

/-- C2 counterexample: with the profile `maxRequests = 0`, the call after
expiry does reset the count to `1` and assign a fresh `resetTime`, yet it
returns `allowed = false`, refuting the claim's unconditional
"returns `allowed = true`". -/
theorem windowReset_counterexample :
    Store.lookup [("k", (⟨7, 0, 5⟩ : RateLimitEntry))] "k" = some ⟨7, 0, 5⟩ ∧
    (⟨7, 0, 5⟩ : RateLimitEntry).resetTime < 10 ∧
    Store.lookup (createRateLimiter ⟨1000, 0, "limited", 429, none⟩ "k"
        [("k", ⟨7, 0, 5⟩)] 10).2 "k" = some ⟨1, 10, 1010⟩ ∧
    (createRateLimiter ⟨1000, 0, "limited", 429, none⟩ "k"
        [("k", ⟨7, 0, 5⟩)] 10).1.allowed = false :=
  ⟨rfl, by norm_num, rfl, rfl⟩

/-- C4 (amended): `getClientIP` follows the priority chain
`x-forwarded-for` (first comma-separated entry, trimmed) →
`cf-connecting-ip` → `x-real-ip` → the literal `"unknown"`, where each
header participates only when present **with a non-empty value** (the
amendment: a header present with the empty-string value is falsy in the
code's truthiness guards and is skipped exactly like an absent header);
no validation of the returned value is performed. -/
theorem getClientIP_spec (h : HeaderMap) :
    (∀ v, HeaderMap.get h "x-forwarded-for" = some v → v ≠ "" →
      getClientIP h = jsTrim ((jsSplit v ',').headD "")) ∧
    (truthy (HeaderMap.get h "x-forwarded-for") = false →
      ∀ v, HeaderMap.get h "cf-connecting-ip" = some v → v ≠ "" →
        getClientIP h = v) ∧
    (truthy (HeaderMap.get h "x-forwarded-for") = false →
      truthy (HeaderMap.get h "cf-connecting-ip") = false →
      ∀ v, HeaderMap.get h "x-real-ip" = some v → v ≠ "" →
        getClientIP h = v) ∧
    (truthy (HeaderMap.get h "x-forwarded-for") = false →
      truthy (HeaderMap.get h "cf-connecting-ip") = false →
      truthy (HeaderMap.get h "x-real-ip") = false →
      getClientIP h = "unknown") := by
  refine ⟨?_, ?_, ?_, ?_⟩
  · intro v hv hne
    have ht : truthy (some v) = true := by simpa [truthy] using hne
    simp [getClientIP, hv, ht]
  · intro hf v hv hne
    have ht : truthy (some v) = true := by simpa [truthy] using hne
    simp [getClientIP, hf, hv, ht]
  · intro hf hc v hv hne
    have ht : truthy (some v) = true := by simpa [truthy] using hne
    simp [getClientIP, hf, hc, hv, ht]
  · intro hf hc hr
    simp [getClientIP, hf, hc, hr]

theorem getClientIP_spec_witness :
    HeaderMap.get [("x-forwarded-for", "198.51.100.7, 10.0.0.1")]
        "x-forwarded-for" = some "198.51.100.7, 10.0.0.1" ∧
    "198.51.100.7, 10.0.0.1" ≠ "" ∧
    getClientIP [("x-forwarded-for", "198.51.100.7, 10.0.0.1")]
      = jsTrim ((jsSplit "198.51.100.7, 10.0.0.1" ',').headD "") :=
  ⟨rfl, by decide,
   (getClientIP_spec [("x-forwarded-for", "198.51.100.7, 10.0.0.1")]).1
      "198.51.100.7, 10.0.0.1" rfl (by decide)⟩

/-- C4 counterexample: with `x-forwarded-for` present but holding the empty
string, the code falls through to `cf-connecting-ip` instead of returning
the (trimmed) first entry of the `x-forwarded-for` list as the claim
demands. -/
theorem getClientIP_counterexample :
    HeaderMap.get [("x-forwarded-for", ""), ("cf-connecting-ip", "203.0.113.9")]
        "x-forwarded-for" = some "" ∧
    getClientIP [("x-forwarded-for", ""), ("cf-connecting-ip", "203.0.113.9")]
      = "203.0.113.9" ∧
    jsTrim ((jsSplit "" ',').headD "") = "" ∧
    ("203.0.113.9" : String) ≠ "" :=
  ⟨rfl, rfl, by decide, by decide⟩

/-! ## Session lemmas -/

theorem createSession_eq (secret identity : String) (now : Nat) :
    createSession secret identity now =
      .signed
        ⟨identity,
         some (isoOfMs (now + SESSION_EXPIRATION_HOURS * 60 * 60 * 1000)),
         now / 1000, now / 1000 + SESSION_EXPIRATION_HOURS * 60 * 60⟩
        (hmacSign secret
          ⟨identity,
           some (isoOfMs (now + SESSION_EXPIRATION_HOURS * 60 * 60 * 1000)),
           now / 1000, now / 1000 + SESSION_EXPIRATION_HOURS * 60 * 60⟩) := rfl

theorem verifySession_sig_mismatch (secret : String) (p : SessionTokenPayload)
    (sig : MacSig) (nowMs : Nat) (hs : sig ≠ hmacSign secret p) :
    verifySession secret (.signed p sig) nowMs = none := by
  simp [verifySession, jwtVerifyModel, hs]

theorem verifySession_expired_of_le (secret identity : String) (T0 T : Nat)
    (h : T0 + SESSION_EXPIRATION_HOURS * 60 * 60 * 1000 ≤ T) :
    verifySession secret (createSession secret identity T0) T = none := by
  rw [createSession_eq]
  have hexp : T0 / 1000 + SESSION_EXPIRATION_HOURS * 60 * 60 ≤ T / 1000 := by
    simp only [SESSION_EXPIRATION_HOURS] at h ⊢
    omega
  simp [verifySession, jwtVerifyModel, hexp]

theorem verifySession_valid_of_lt (secret identity : String) (T0 T : Nat)
    (h : T < 1000 * (T0 / 1000) + SESSION_EXPIRATION_HOURS * 60 * 60 * 1000) :
    verifySession secret (createSession secret identity T0) T
      = some ⟨identity,
          .valid (T0 + SESSION_EXPIRATION_HOURS * 60 * 60 * 1000)⟩ := by
  rw [createSession_eq]
  have hexp : ¬ (T0 / 1000 + SESSION_EXPIRATION_HOURS * 60 * 60 ≤ T / 1000) := by
    simp only [SESSION_EXPIRATION_HOURS] at h ⊢
    omega
  have hlt : ¬ (T0 + SESSION_EXPIRATION_HOURS * 60 * 60 * 1000 < T) := by
    simp only [SESSION_EXPIRATION_HOURS] at h ⊢
    omega
  simp [verifySession, jwtVerifyModel, hexp, jsParseDate, parseDateString,
    isoOfMs, JsDate.lt, hlt]

/-- C5: round trip — verifying a token immediately after issuing it for a
non-empty identity, with no clock advance, returns a valid (non-`null`)
session whose subject identity equals the original input. -/
theorem verify_roundtrip (secret identity : String) (now : Nat)
    (_hne : identity ≠ "") :
    ∃ sp : SessionPayload,
      verifySession secret (createSession secret identity now) now = some sp ∧
      sp.username = identity := by
  refine ⟨⟨identity, .valid (now + SESSION_EXPIRATION_HOURS * 60 * 60 * 1000)⟩,
    ?_, rfl⟩
  exact verifySession_valid_of_lt secret identity now now
    (by simp only [SESSION_EXPIRATION_HOURS]; omega)

theorem verify_roundtrip_witness :
    ("admin@russoluxtours.de" : String) ≠ "" ∧
    ∃ sp : SessionPayload,
      verifySession "jwt-secret"
          (createSession "jwt-secret" "admin@russoluxtours.de" 1700000000000)
          1700000000000
        = some sp ∧
      sp.username = "admin@russoluxtours.de" :=
  ⟨by decide,
   verify_roundtrip "jwt-secret" "admin@russoluxtours.de" 1700000000000
     (by decide)⟩

/-- C6 (amended): with the fixed 2-hour session duration, a token issued at
clock `T0` verifies as invalid at every clock `≥ T0 + 2h` even though its
signature is intact, and verifies as valid at every clock strictly before
2 hours after the start of the second of issuance,
`1000·⌊T0/1000⌋ + 2h` (the amendment: the signing library enforces its
`exp` claim at whole-second granularity, so for a `T0` that is not
second-aligned, validity can end up to one second before `T0 + 2h`; for
second-aligned `T0` this is exactly "strictly before `T0 + 2h`"); the
token's embedded `expiresAt` claim always equals `issuedAt + 2h`. -/
theorem session_expiry_spec (secret identity : String) (T0 T : Nat) :
    (T0 + SESSION_EXPIRATION_HOURS * 60 * 60 * 1000 ≤ T →
      verifySession secret (createSession secret identity T0) T = none) ∧
    (T < 1000 * (T0 / 1000) + SESSION_EXPIRATION_HOURS * 60 * 60 * 1000 →
      verifySession secret (createSession secret identity T0) T
        = some ⟨identity,
            .valid (T0 + SESSION_EXPIRATION_HOURS * 60 * 60 * 1000)⟩) ∧
    (∀ p sig, createSession secret identity T0 = .signed p sig →
      p.expiresAtIso
        = some (isoOfMs (T0 + SESSION_EXPIRATION_HOURS * 60 * 60 * 1000))) := by
  refine ⟨verifySession_expired_of_le secret identity T0 T,
    verifySession_valid_of_lt secret identity T0 T, ?_⟩
  intro p sig h
  rw [createSession_eq] at h
  cases h
  rfl

theorem session_expiry_spec_witness :
    (0 : Nat) + SESSION_EXPIRATION_HOURS * 60 * 60 * 1000 ≤ 7200000 ∧
    verifySession "jwt-secret" (createSession "jwt-secret" "admin" 0) 7200000
      = none ∧
    (7199999 : Nat) < 1000 * (0 / 1000)
        + SESSION_EXPIRATION_HOURS * 60 * 60 * 1000 ∧
    verifySession "jwt-secret" (createSession "jwt-secret" "admin" 0) 7199999
      = some ⟨"admin", .valid (0 + SESSION_EXPIRATION_HOURS * 60 * 60 * 1000)⟩ :=
  ⟨by norm_num [SESSION_EXPIRATION_HOURS],
   (session_expiry_spec "jwt-secret" "admin" 0 7200000).1
      (by norm_num [SESSION_EXPIRATION_HOURS]),
   by norm_num [SESSION_EXPIRATION_HOURS],
   (session_expiry_spec "jwt-secret" "admin" 0 7199999).2.1
      (by norm_num [SESSION_EXPIRATION_HOURS])⟩

/-- C6 counterexample: a token issued at `T0 = 500` ms (not aligned to a
whole second) is already rejected at clock `7200400` ms, which is strictly
before `T0 + 2h = 7200500` ms — refuting the claim's "valid at clocks
strictly before `T0 + 2h`": the signing library's `exp` claim,
`⌊T0/1000⌋ + 7200` whole seconds, has already passed. -/
theorem session_expiry_counterexample :
    (7200400 : Nat) < 500 + SESSION_EXPIRATION_HOURS * 60 * 60 * 1000 ∧
    verifySession "jwt-secret" (createSession "jwt-secret" "admin" 500) 7200400
      = none := by
  constructor
  · norm_num [SESSION_EXPIRATION_HOURS]
  · rfl

/-- C7: verification failure is total and merged — a structurally malformed
token, a token whose signature does not verify (any tamper of the signature
bits, or a signature minted under a different secret), an expired token,
and a token whose payload was altered while keeping an honestly issued
signature, all produce the one invalid result `none`; no exception escapes
(the embedding is a total function, mirroring the `try/catch` that maps
every thrown error to `null`), so the caller cannot distinguish the failure
causes from the returned value. -/
theorem verifySession_uniform_failure (secret : String) (nowMs : Nat) :
    (∀ raw, verifySession secret (.malformed raw) nowMs = none) ∧
    (∀ p sig, sig ≠ hmacSign secret p →
      verifySession secret (.signed p sig) nowMs = none) ∧
    (∀ identity T0, T0 + SESSION_EXPIRATION_HOURS * 60 * 60 * 1000 ≤ nowMs →
      verifySession secret (createSession secret identity T0) nowMs = none) ∧
    (∀ identity T0 p sig, createSession secret identity T0 = .signed p sig →
      ∀ q, q ≠ p → verifySession secret (.signed q sig) nowMs = none) := by
  refine ⟨fun raw => rfl,
    fun p sig hs => verifySession_sig_mismatch secret p sig nowMs hs,
    fun identity T0 h =>
      verifySession_expired_of_le secret identity T0 nowMs h, ?_⟩
  intro identity T0 p sig h q hq
  rw [createSession_eq] at h
  cases h
  apply verifySession_sig_mismatch
  intro hcontra
  exact hq (congrArg MacSig.signedPayload hcontra).symm

theorem verifySession_uniform_failure_witness :
    ((⟨"evil", ⟨"a", none, 0, 9999⟩⟩ : MacSig)
      ≠ hmacSign "jwt-secret" ⟨"a", none, 0, 9999⟩) ∧
    verifySession "jwt-secret"
        (.signed ⟨"a", none, 0, 9999⟩ ⟨"evil", ⟨"a", none, 0, 9999⟩⟩) 0
      = none :=
  ⟨by decide,
   (verifySession_uniform_failure "jwt-secret" 0).2.1
      ⟨"a", none, 0, 9999⟩ ⟨"evil", ⟨"a", none, 0, 9999⟩⟩ (by decide)⟩

/-- C10 (implicit): for a token that passes the signing library's
verification but whose `expiresAt` claim is absent or not a parsable date
string, the explicit expiry check in `verifySession` is vacuous — comparing
an `Invalid Date` against the current time is `false` — so the token is not
rejected there and a non-`null` session carrying the invalid `expiresAt` is
returned; for such payloads only the library's own internal expiry
enforcement (the `exp` claim) can cause rejection. -/
theorem verifySession_invalid_expiresAt (secret : String)
    (p : SessionTokenPayload) (sig : MacSig) (nowMs : Nat)
    (hbad : jsParseDate p.expiresAtIso = .invalid) :
    (jwtVerifyModel secret (.signed p sig) nowMs = .ok p →
      verifySession secret (.signed p sig) nowMs
        = some ⟨p.username, .invalid⟩) ∧
    (verifySession secret (.signed p sig) nowMs = none →
      ∃ e, jwtVerifyModel secret (.signed p sig) nowMs = .error e) := by
  constructor
  · intro hok
    unfold verifySession
    rw [hok]
    simp [hbad, JsDate.lt]
  · intro hnone
    cases hj : jwtVerifyModel secret (.signed p sig) nowMs with
    | error e => exact ⟨e, rfl⟩
    | ok q =>
      exfalso
      have hq : q = p := by
        by_cases hs : sig = hmacSign secret p
        · by_cases hexp : p.exp ≤ nowMs / 1000
          · rw [show jwtVerifyModel secret (.signed p sig) nowMs
                = .error .expired from by simp [jwtVerifyModel, hs, hexp]] at hj
            exact absurd hj (by simp)
          · rw [show jwtVerifyModel secret (.signed p sig) nowMs
                = .ok p from by simp [jwtVerifyModel, hs, hexp]] at hj
            injection hj with h
            exact h.symm
        · rw [show jwtVerifyModel secret (.signed p sig) nowMs
              = .error .signatureMismatch from by
                simp [jwtVerifyModel, hs]] at hj
          exact absurd hj (by simp)
      subst hq
      unfold verifySession at hnone
      rw [hj] at hnone
      simp [hbad, JsDate.lt] at hnone

theorem verifySession_invalid_expiresAt_witness :
    jsParseDate (⟨"admin", none, 0, 7200⟩ : SessionTokenPayload).expiresAtIso
      = .invalid ∧
    jwtVerifyModel "jwt-secret"
        (.signed ⟨"admin", none, 0, 7200⟩
          (hmacSign "jwt-secret" ⟨"admin", none, 0, 7200⟩)) 0
      = .ok ⟨"admin", none, 0, 7200⟩ ∧
    verifySession "jwt-secret"
        (.signed ⟨"admin", none, 0, 7200⟩
          (hmacSign "jwt-secret" ⟨"admin", none, 0, 7200⟩)) 0
      = some ⟨"admin", .invalid⟩ :=
  ⟨rfl, rfl,
   (verifySession_invalid_expiresAt "jwt-secret" ⟨"admin", none, 0, 7200⟩
      (hmacSign "jwt-secret" ⟨"admin", none, 0, 7200⟩) 0 rfl).1 rfl⟩

/-- C8: every credential-check failure path of the login flow incurs the
artificial anti-timing delay before returning failure, and the two failure
paths are comparable: the unknown-identity path accumulates 100 ms (inside
`verifyCredentials`) plus the route's unconditional 1000 ms, the
correct-identity-wrong-password path the route's 1000 ms, so both are
≥ 1000 ms and differ by at most the documented 100 ms delay constant. -/
theorem login_delay_symmetry (bc : String → String → Bool) (env : AuthEnv)
    (email password : String) :
    (email ≠ TARGET_EMAIL →
      loginRouteCheck bc env email password = (false, 1100)) ∧
    (bc password TARGET_HASH = false →
      loginRouteCheck bc env TARGET_EMAIL password = (false, 1000)) ∧
    ((loginRouteCheck bc env email password).1 = false →
      1000 ≤ (loginRouteCheck bc env email password).2) ∧
    (∀ email' password' password'',
      email' ≠ TARGET_EMAIL → bc password'' TARGET_HASH = false →
      ((loginRouteCheck bc env email' password').2 : ℤ)
          - ((loginRouteCheck bc env TARGET_EMAIL password'').2 : ℤ) ≤ 100 ∧
      ((loginRouteCheck bc env TARGET_EMAIL password'').2 : ℤ)
          - ((loginRouteCheck bc env email' password').2 : ℤ) ≤ 100) := by
  refine ⟨?_, ?_, ?_, ?_⟩
  · intro h
    simp [loginRouteCheck, verifyCredentials, h]
  · intro hbc
    simp [loginRouteCheck, verifyCredentials, hbc]
  · intro h
    by_cases he : email = TARGET_EMAIL
    · subst he
      by_cases hbc : bc password TARGET_HASH
      · simp [loginRouteCheck, verifyCredentials, hbc] at h
      · simp [loginRouteCheck, verifyCredentials,
          Bool.eq_false_iff.mpr hbc]
    · simp [loginRouteCheck, verifyCredentials, he]
  · intro email' password' password'' he hbc
    simp [loginRouteCheck, verifyCredentials, he, hbc]

theorem login_delay_symmetry_witness :
    ("guest@example.com" : String) ≠ TARGET_EMAIL ∧
    loginRouteCheck (fun _ _ => false) ⟨"cfgEmail", "cfgHash"⟩
        "guest@example.com" "pw" = (false, 1100) :=
  ⟨by decide,
   (login_delay_symmetry (fun _ _ => false) ⟨"cfgEmail", "cfgHash"⟩
      "guest@example.com" "pw").1 (by decide)⟩

/-- A bcrypt oracle for concrete witnesses: accepts exactly the pair
("pw", "hash-of-pw"). -/
def mockBcrypt : String → String → Bool :=
  fun p h => p == "pw" && h == "hash-of-pw"

/-- C9: contrary to the claim, the credential check does not compare
against the `(identity, passwordHash)` pair supplied by process
configuration: it reads the configured pair but ignores it, comparing
instead against the hardcoded `TARGET_EMAIL` / `TARGET_HASH` constants —
the result is independent of the configuration, and a caller supplying
exactly the configured identity and a password matching the configured
hash is still rejected whenever that identity differs from the hardcoded
one. -/
theorem verifyCredentials_ignores_config :
    (∀ (bc : String → String → Bool) (env env' : AuthEnv)
        (email password : String),
      verifyCredentials bc env email password
        = verifyCredentials bc env' email password) ∧
    (∀ bc : String → String → Bool,
      bc "pw" "hash-of-pw" = true →
      (verifyCredentials bc ⟨"other@example.com", "hash-of-pw"⟩
          "other@example.com" "pw").1 = false) := by
  constructor
  · intro bc env env' email password
    rfl
  · intro bc hbc
    have h : ("other@example.com" : String) ≠ TARGET_EMAIL := by decide
    simp [verifyCredentials, h]

theorem verifyCredentials_ignores_config_witness :
    mockBcrypt "pw" "hash-of-pw" = true ∧
    (verifyCredentials mockBcrypt ⟨"other@example.com", "hash-of-pw"⟩
        "other@example.com" "pw").1 = false :=
  ⟨by decide, verifyCredentials_ignores_config.2 mockBcrypt (by decide)⟩

end TravelAgency
